import Mathlib

/-!
Verification development for the Java call-graph extractor (`process.py`).

The program consumes an ANTLR parse-tree walk (enter/exit notifications over
syntax nodes) and builds a per-file model (package, imports, classes with
fields/methods/call statements), then renders it as a `digraph` text.

The embedding below mirrors the Python source:

* Syntax nodes (`Node`) carry text, start line/column, stop line and ordered
  children, matching the parts of the ANTLR context interface the listener
  uses (`getText`, `getChild`, `getChildCount`, `start`, `stop`).
* Python objects (`JavaClass`, `JavaMethod`) are mutated through references;
  the embedding uses explicit heaps (`heapC`, `heapM`) addressed by ids so
  that reference aliasing (e.g. `self._deep_class[d]` and
  `self._ast.classes[name]` pointing at the same or at different objects) is
  represented faithfully.
* Python `dict`s (insertion ordered) are association lists with first-match
  lookup (`dget?`), in-place update / ordered append (`dset`) and `pop`
  (`dpop`, `none` models a `KeyError`).
* Python exceptions are `Except PyErr`: `attributeError` models calling a
  method on `None` (out-of-range `getChild`), `keyError` a missing dict key,
  `structural` the explicitly raised `Exception`s.
-/

set_option maxHeartbeats 1000000

namespace CallGraph

/-- A syntax-tree node as the listener sees it: text, start line, start
column, stop line, ordered children. -/
inductive Node where
  | node (text : String) (line : Nat) (column : Nat) (stopLine : Nat) (children : List Node)

def Node.text : Node → String
  | .node t _ _ _ _ => t

def Node.line : Node → Nat
  | .node _ l _ _ _ => l

def Node.column : Node → Nat
  | .node _ _ c _ _ => c

def Node.stopLine : Node → Nat
  | .node _ _ _ s _ => s

def Node.children : Node → List Node
  | .node _ _ _ _ cs => cs

/-- Models `ctx.getChildCount()`. -/
def Node.getChildCount (n : Node) : Nat := n.children.length

/-- Models `ctx.getChild(i)`: `none` models ANTLR returning Python `None` for an
out-of-range index. -/
def Node.getChild (n : Node) (i : Nat) : Option Node := n.children[i]?

instance : Inhabited Node := ⟨.node "" 0 0 0 []⟩

/-- Python exceptions that the listener can raise. -/
inductive PyErr where
  | attributeError
  | keyError
  | structural (msg : String)
  deriving DecidableEq

/-- Models `ctx.getChild(i)` followed by a use: `AttributeError` when out of range. -/
def nthChild (ctx : Node) (i : Nat) : Except PyErr Node :=
  match ctx.getChild i with
  | some c => .ok c
  | none => .error .attributeError

/-- Models `ctx.getChild(i).getText()`: `AttributeError` when out of range. -/
def childText (ctx : Node) (i : Nat) : Except PyErr String :=
  match ctx.getChild i with
  | some c => .ok c.text
  | none => .error .attributeError

/-- Ordered-dict lookup (first matching key). -/
def dget? {κ α : Type} [BEq κ] : List (κ × α) → κ → Option α
  | [], _ => none
  | p :: rest, k => if p.1 == k then some p.2 else dget? rest k

/-- Ordered-dict assignment: replace in place when the key is present
(keeping its position, as Python dicts do), append otherwise. -/
def dset {κ α : Type} [BEq κ] : List (κ × α) → κ → α → List (κ × α)
  | [], k, v => [(k, v)]
  | p :: rest, k, v => if p.1 == k then (k, v) :: rest else p :: dset rest k v

/-- Ordered-dict `pop`: `none` models a `KeyError`. -/
def dpop {κ α : Type} [BEq κ] : List (κ × α) → κ → Option (List (κ × α))
  | [], _ => none
  | p :: rest, k =>
    if p.1 == k then some rest else (dpop rest k).map (fun m => p :: m)

/-- Python class `Statement`: one recorded call expression. -/
structure Statement where
  value : String
  line : Nat
  column : Nat
  deriving DecidableEq

/-- Python class `ParmType`: one decoded method parameter. -/
structure ParmType where
  name : String
  type : String
  deriving DecidableEq

/-- Python class `FieldType`: one decoded field declaration. -/
structure FieldType where
  type : String
  define : String
  deriving DecidableEq

/-- The `implements` component of a decoded class header.  The Python code
initialises it to the empty string `''` and only some branches replace it by
a list, so the value is either a string or a list of strings. -/
inductive Implements where
  | str (s : String)
  | list (l : List String)
  deriving DecidableEq

/-- Python `JavaMethod` object contents (heap cell). -/
structure JavaMethod where
  name : String
  start : Nat
  stop : Nat
  depth : Nat
  parameters : List ParmType
  return_type : String
  statements : List Statement
  deriving DecidableEq

/-- Python `JavaClass` object contents (heap cell); `methods` maps method names to
`JavaMethod` heap ids. -/
structure JavaClass where
  name : String
  extends_ : String
  implements : Implements
  fields : List FieldType
  methods : List (String × Nat)
  statements : List Statement
  deriving DecidableEq

instance : Inhabited JavaClass := ⟨"", "", .str "", [], [], []⟩

instance : Inhabited JavaMethod := ⟨"", 0, 0, 0, [], "", []⟩

/-- The whole mutable state of one `CollectListener` (together with its
`JavaFileAst`): heaps for class and method objects, the `JavaFileAst` fields
(`package_name`, `imports`, `classes`), the scope tracker (`_deep_class`,
`_deep`), the current-method pointer, and the `logger.warning` messages
emitted so far. -/
structure ListenerState where
  heapC : List JavaClass
  heapM : List JavaMethod
  package_name : String
  imports : List String
  classes : List (String × Nat)
  deep_class : List (Nat × Nat)
  deep : Nat
  current_method : Option Nat
  warnings : List String
  deriving DecidableEq

/-- Initial state, as set up by `CollectListener.__init__`. -/
def initState : ListenerState :=
  { heapC := [], heapM := [], package_name := "", imports := [], classes := [],
    deep_class := [], deep := 0, current_method := none, warnings := [] }

/-- Embeds `CollectListener.parse_implements_block`. -/
def parse_implements_block (ctx : Node) : List String :=
  let implements_child_count := ctx.getChildCount
  if implements_child_count == 1 then
    match ctx.getChild 0 with
    | some c => [c.text]
    | none => []
  else if implements_child_count > 1 then
    (List.range implements_child_count).foldl (fun result i =>
      if i % 2 == 0 then
        match ctx.getChild i with
        | some c => result ++ [c.text]
        | none => result
      else result) []
  else []

/-- The child-count dispatch of `CollectListener.parse_class_block` (the
assignments to `class_name`, `extends`, `implements`).  The state argument
supplies `self._deep_class` / `self._deep` for the 2-child case. -/
def parse_class_block_core (st : ListenerState) (ctx : Node) :
    Except PyErr (String × String × Implements) :=
  let child_count := ctx.getChildCount
  if child_count == 7 then do
      let class_name ← childText ctx 1
      let c3 ← nthChild ctx 3
      let extends_ ← childText c3 0
      let c5 ← nthChild ctx 5
      .ok (class_name, extends_, Implements.list (parse_implements_block c5))
    else if child_count == 5 then do
      let class_name ← childText ctx 1
      let c3 ← childText ctx 2
      if c3 == "implements" then do
        let c ← nthChild ctx 3
        .ok (class_name, "", Implements.list (parse_implements_block c))
      else if c3 == "extends" then do
        let cx ← nthChild ctx 3
        let extends_ ← childText cx 0
        .ok (class_name, extends_, Implements.str "")
      else
        .ok (class_name, "", Implements.str "")
    else if child_count == 3 then do
      let class_name ← childText ctx 1
      .ok (class_name, "", Implements.str "")
    else if child_count == 2 then
      match dget? st.deep_class st.deep with
      | some cid => .ok ((st.heapC.getD cid default).name, "", Implements.str "")
      | none => .error PyErr.keyError
    else
      .ok ("", "", Implements.str "")

/-- Embeds `CollectListener.parse_class_block`: the eager `print_stage` argument
(`ctx.getChild(1).getText()`, an `AttributeError` on fewer than 2 children),
then the child-count dispatch above, then the final
`if not class_name: raise Exception('Class name is not found')`. -/
def parse_class_block (st : ListenerState) (ctx : Node) :
    Except PyErr (String × String × Implements) := do
  let _ ← childText ctx 1
  let res ← parse_class_block_core st ctx
  if res.1 == "" then
    .error (.structural "Class name is not found")
  else
    .ok res

/-- Embeds `CollectListener.parse_method_params_block`. -/
def parse_method_params_block (ctx : Node) : Except PyErr (List ParmType) := do
  let params_exist_check := ctx.getChildCount
  if params_exist_check == 3 then do
    let c1 ← nthChild ctx 1
    let params_child_count := c1.getChildCount
    if params_child_count == 1 then do
      let p ← nthChild c1 0
      let param_type ← childText p 0
      let param_name ← childText p 1
      .ok [{ name := param_name, type := param_type }]
    else if params_child_count > 1 then
      (List.range params_child_count).foldlM (fun result i =>
        if i % 2 == 0 then do
          let p ← nthChild c1 i
          let param_type ← childText p 0
          let param_name ← childText p 1
          .ok (result ++ [({ name := param_name, type := param_type } : ParmType)])
        else .ok result) []
    else .ok []
  else .ok []

/-- Embeds `CollectListener.enterPackageDeclaration`: record the qualified name. -/
def enterPackageDeclaration (st : ListenerState) (qualifiedName : String) :
    Except PyErr ListenerState :=
  .ok { st with package_name := qualifiedName }

/-- Embeds `CollectListener.enterImportDeclaration`: append the qualified name. -/
def enterImportDeclaration (st : ListenerState) (qualifiedName : String) :
    Except PyErr ListenerState :=
  .ok { st with imports := st.imports ++ [qualifiedName] }

/-- Embeds `CollectListener.enterClassDeclaration` (also used verbatim by
`enterEnumDeclaration`): decode the header with the pre-increment depth,
increment the depth, allocate a fresh `JavaClass`, bind it in
`self._ast.classes` under its name (overwriting any same-named entry) and
register it at the new depth. -/
def enterClassDeclaration (st : ListenerState) (ctx : Node) :
    Except PyErr ListenerState := do
  let _ ← childText ctx 1
  let (name, extends_, implements) ← parse_class_block st ctx
  let deep := st.deep + 1
  let cid := st.heapC.length
  let obj : JavaClass :=
    { name := name, extends_ := extends_, implements := implements,
      fields := [], methods := [], statements := [] }
  .ok { st with
          heapC := st.heapC ++ [obj]
          deep := deep
          classes := dset st.classes name cid
          deep_class := dset st.deep_class deep cid }

/-- Embeds `CollectListener.exitClassDeclaration` (also used by
`exitEnumDeclaration`): pop the current depth's registration, decrement. -/
def exitClassDeclaration (st : ListenerState) (ctx : Node) :
    Except PyErr ListenerState := do
  let _ ← childText ctx 1
  match dpop st.deep_class st.deep with
  | some m => .ok { st with deep_class := m, deep := st.deep - 1 }
  | none => .error .keyError

/-- Embeds `CollectListener.enterFieldDeclaration`: re-derive the enclosing class
header from `ctx.parentCtx.parentCtx.parentCtx.parentCtx` (supplied as
`gparent`), cross-check it against the scope tracker's current class, then
append a `FieldType` to the `classes` entry under that name. -/
def enterFieldDeclaration (st : ListenerState) (ctx : Node) (gparent : Node) :
    Except PyErr ListenerState := do
  let (class_name, _, _) ← parse_class_block st gparent
  match dget? st.deep_class st.deep with
  | none => .error .keyError
  | some cid =>
    let current_class := st.heapC.getD cid default
    if class_name != current_class.name then
      .error (.structural
        ("Class name is " ++ class_name ++ " is not equal " ++ current_class.name))
    else
      match dget? st.classes current_class.name with
      | none => .error .keyError
      | some cid2 => do
        let t ← childText ctx 0
        let d ← childText ctx 1
        let obj := st.heapC.getD cid2 default
        .ok { st with heapC := st.heapC.set cid2 { obj with fields := obj.fields ++ [⟨t, d⟩] } }

/-- Embeds `CollectListener.enterMethodDeclaration`: if the name is already a key of
the scope-tracked class's `methods`, only emit a warning; otherwise build a
fresh `JavaMethod`, bind it in the `classes` entry under the scope-tracked
class's name, and point `_current_method` at it.  `ctxDepth` carries
`ctx.depth()`. -/
def enterMethodDeclaration (st : ListenerState) (ctx : Node) (ctxDepth : Nat) :
    Except PyErr ListenerState := do
  let method_name ← childText ctx 1
  match dget? st.deep_class st.deep with
  | none => .error .keyError
  | some cid =>
    let current_class := st.heapC.getD cid default
    if (dget? current_class.methods method_name).isSome then
      .ok { st with warnings :=
        st.warnings ++ [method_name ++ " is a overloading, ignore it in this version."] }
    else do
      let return_type ← childText ctx 0
      let params ← match ctx.getChild 2 with
        | none => .error PyErr.attributeError
        | some c2 => parse_method_params_block c2
      match dget? st.classes current_class.name with
      | none => .error .keyError
      | some cid2 =>
        let mid := st.heapM.length
        let m : JavaMethod :=
          { name := method_name, return_type := return_type, start := ctx.line,
            stop := ctx.stopLine, depth := ctxDepth, parameters := params, statements := [] }
        let obj := st.heapC.getD cid2 default
        .ok { st with
                heapM := st.heapM ++ [m]
                heapC := st.heapC.set cid2 { obj with methods := dset obj.methods method_name mid }
                current_method := some mid }

/-- Embeds `CollectListener.exitMethodDeclaration`: clear the current method. -/
def exitMethodDeclaration (st : ListenerState) (ctx : Node) :
    Except PyErr ListenerState := do
  let _ ← childText ctx 1
  .ok { st with current_method := none }

/-- Embeds `CollectListener.enterMethodCall`: build a `Statement` from the first
child's text and the node's start position; append it to the current method
if one is open, otherwise to the `classes` entry under the scope-tracked
class's name. -/
def enterMethodCall (st : ListenerState) (ctx : Node) :
    Except PyErr ListenerState := do
  let v ← childText ctx 0
  let statement : Statement := ⟨v, ctx.line, ctx.column⟩
  match st.current_method with
  | none =>
    match dget? st.deep_class st.deep with
    | none => .error .keyError
    | some cid =>
      let current_class := st.heapC.getD cid default
      match dget? st.classes current_class.name with
      | none => .error .keyError
      | some cid2 =>
        let obj := st.heapC.getD cid2 default
        .ok { st with heapC :=
          st.heapC.set cid2 { obj with statements := obj.statements ++ [statement] } }
  | some mid =>
    let m := st.heapM.getD mid default
    .ok { st with heapM :=
      st.heapM.set mid { m with statements := m.statements ++ [statement] } }

/-- One enter/exit notification from the tree walker.  Enum declarations are
delegated by the listener to the class-declaration handlers, so they use the
same constructors.  `enterField` carries the node together with its
great-great-grandparent (the only ancestor the handler inspects);
`enterMethod` carries `ctx.depth()`. -/
inductive Notif where
  | enterPackage (qualifiedName : String)
  | exitPackage
  | enterImport (qualifiedName : String)
  | enterClass (ctx : Node)
  | exitClass (ctx : Node)
  | enterField (ctx : Node) (gparent : Node)
  | enterMethod (ctx : Node) (ctxDepth : Nat)
  | exitMethod (ctx : Node)
  | enterMethodCall (ctx : Node)

/-- Dispatch of one notification to its handler. -/
def step (st : ListenerState) (n : Notif) : Except PyErr ListenerState :=
  match n with
  | .enterPackage q => enterPackageDeclaration st q
  | .exitPackage => .ok st
  | .enterImport q => enterImportDeclaration st q
  | .enterClass ctx => enterClassDeclaration st ctx
  | .exitClass ctx => exitClassDeclaration st ctx
  | .enterField ctx gp => enterFieldDeclaration st ctx gp
  | .enterMethod ctx d => enterMethodDeclaration st ctx d
  | .exitMethod ctx => exitMethodDeclaration st ctx
  | .enterMethodCall ctx => enterMethodCall st ctx

/-- Embeds `ParseTreeWalker.walk`: process the notification stream in order; the
first uncaught exception aborts the walk. -/
def runL (st : ListenerState) (ns : List Notif) : Except PyErr ListenerState :=
  ns.foldlM step st

/-- Embeds `JavaFileAst.dot`: render the finished model. -/
def dot (st : ListenerState) : String :=
  let digraph : List String := ["digraph \"callGraph\" \x7b"]
  let digraph := st.classes.foldl (fun acc p =>
    let name := p.1
    let class_ := st.heapC.getD p.2 default
    let acc := acc ++ ["\"" ++ name ++ "\""]
    let acc := class_.statements.foldl
      (fun a stmt => a ++ ["\"" ++ name ++ "\" -> \"" ++ stmt.value ++ "\";"]) acc
    class_.methods.foldl (fun a mp =>
      let method := st.heapM.getD mp.2 default
      let a := a ++ ["\"" ++ mp.1 ++ "\""]
      let a := a ++ ["\"" ++ name ++ "\" -> \"" ++ mp.1 ++ "\";"]
      method.statements.foldl
        (fun a2 stmt => a2 ++ ["\"" ++ mp.1 ++ "\" -> \"" ++ stmt.value ++ "\";"]) a) acc) digraph
  String.intercalate "\n" (digraph ++ ["\x7d"])

/-- Embeds `JavaCallGraph.process`: walk the file's notification stream, then — only
if the walk completed and an output path was given — write the rendered
graph.  The written content is returned in place of the filesystem write. -/
def process (notifs : List Notif) (output_path : Bool) :
    Except PyErr (Option String) := do
  let st ← runL initState notifs
  if output_path then .ok (some (dot st)) else .ok none

/-- One file's logged outcome in `JavaCallGraph.create`. -/
inductive Outcome where
  | success
  | failure
  deriving DecidableEq

/-- Embeds `JavaCallGraph.create`: await `process` (any exception it raises
propagates — there is no try/except), then log success when the output file
exists and failure otherwise. -/
def create (notifs : List Notif) : Except PyErr Outcome :=
  match process notifs true with
  | .error e => .error e
  | .ok (some _) => .ok .success
  | .ok none => .ok .failure

/-- Models `asyncio.gather` with its default `return_exceptions=False`,
determinised: results are collected in task order and the first task
exception propagates to the awaiter. -/
def gather : List (Except PyErr Outcome) → Except PyErr (List Outcome)
  | [] => .ok []
  | t :: ts => do
    let o ← t
    let os ← gather ts
    .ok (o :: os)

/-- Embeds `main`: one `create` task per discovered file, gathered. -/
def main (files : List (List Notif)) : Except PyErr (List Outcome) :=
  gather (files.map create)

/-- A leaf node (a token). -/
def Node.leaf (t : String) : Node := .node t 0 0 0 []

/-- A concrete 3-child class-header node: `class A { }`. -/
def c2node : Node :=
  .node "classA" 1 0 5
    [.node "class" 1 0 1 [], .node "A" 1 6 1 [], .node "bodyA" 2 0 5 []]

/-- A concrete class-header node with 4 children, a shape the decoder does
not recognise: it raises `Exception('Class name is not found')`. -/
def badHeader : Node :=
  .node "bad" 1 0 1 [Node.leaf "a", Node.leaf "b", Node.leaf "c", Node.leaf "d"]

/-- A concrete 2-child class-header node (anonymous/body-only form). -/
def body2node : Node := .node "body2" 2 0 3 [Node.leaf "x", Node.leaf "y"]

/-- A concrete method-call node, `foo()` at line 4 column 2. -/
def callNode : Node := .node "foo()" 4 2 4 [Node.leaf "foo", Node.leaf "(", Node.leaf ")"]

/-- A concrete field-declaration node, `int x=1;`-like (two children). -/
def fieldNode : Node := .node "intx=1" 3 4 3 [Node.leaf "int", Node.leaf "x=1"]

/-- The state after entering the concrete 3-child class `A`. -/
def stateAfterA : ListenerState :=
  (runL initState [Notif.enterClass c2node]).toOption.getD initState

/-- The C5 counterexample stream: open class `A`, open a 2-child (name
inherited) declaration — which rebinds `classes["A"]` to a fresh object —
close it, then a method call outside any method. -/
def c5stream : List Notif :=
  [Notif.enterClass c2node, Notif.enterClass body2node,
   Notif.exitClass body2node, Notif.enterMethodCall callNode]

/-- The state after the C5 counterexample stream. -/
def c5state : ListenerState :=
  (runL initState c5stream).toOption.getD initState

/-- The C7 counterexample stream: same shadowing prefix, then a field
declaration whose grandparent chain re-derives the open class `A`. -/
def c7stream : List Notif :=
  [Notif.enterClass c2node, Notif.enterClass body2node,
   Notif.exitClass body2node, Notif.enterField fieldNode c2node]

/-- The state after the C7 counterexample stream. -/
def c7state : ListenerState :=
  (runL initState c7stream).toOption.getD initState

/-- The state after `class A`, a 2-child redeclaration of `A`, and its exit:
the scope tracker holds heap object 0 at depth 1 while `classes["A"]` points
at heap object 1. -/
def shadowState : ListenerState :=
  (runL initState
    [Notif.enterClass c2node, Notif.enterClass body2node, Notif.exitClass body2node]
  ).toOption.getD initState

/-- A concrete method-declaration node `void m()` (3 children; the third is
a childless parameter-list token, decoding to no parameters). -/
def methodNode : Node := .node "voidm()" 2 1 3 [Node.leaf "void", Node.leaf "m", Node.leaf "()"]

/-- A concrete exit node for a method (child 1 is the name). -/
def exitMNode : Node := .node "voidm" 2 1 3 [Node.leaf "void", Node.leaf "m"]

/-- A second, differently-shaped method declaration with the same name `m`. -/
def methodNode2 : Node := .node "intm()" 5 1 6 [Node.leaf "int", Node.leaf "m", Node.leaf "()"]

/-- The state after `class A { void m() ... }` (method closed). -/
def c3state : ListenerState :=
  (runL initState
    [Notif.enterClass c2node, Notif.enterMethod methodNode 3, Notif.exitMethod exitMNode]
  ).toOption.getD initState

/-- The classes-mapping invariant of C6 over the mapping and the class heap:
keys are pairwise distinct, every key is a non-empty name, and every entry
points to a live heap object bearing exactly that name. -/
def classesOK2 (classes : List (String × Nat)) (heapC : List JavaClass) : Prop :=
  (classes.map Prod.fst).Nodup
  ∧ ∀ q ∈ classes, q.1 ≠ "" ∧ q.2 < heapC.length
      ∧ (heapC.getD q.2 default).name = q.1

/-- The C6 invariant of a listener state. -/
def classesOK (st : ListenerState) : Prop := classesOK2 st.classes st.heapC

instance (cs : List (String × Nat)) (hc : List JavaClass) : Decidable (classesOK2 cs hc) := by
  unfold classesOK2
  infer_instance

instance (st : ListenerState) : Decidable (classesOK st) := by
  unfold classesOK
  infer_instance

/-- A batch of notifications redeclaring `A` at top level. -/
def c6stream : List Notif :=
  [Notif.enterClass c2node, Notif.exitClass c2node, Notif.enterClass c2node]

/-- The state after `c6stream`. -/
def c6state : ListenerState :=
  (runL initState c6stream).toOption.getD initState

/-- The state after a same-named (nested) class declaration on top of
`stateAfterA`. -/
def c6state2 : ListenerState :=
  (enterClassDeclaration stateAfterA c2node).toOption.getD initState

/-- A node statement line of the rendered graph. -/
def nodeLine (n : String) : String := "\"" ++ n ++ "\""

/-- An edge statement line of the rendered graph. -/
def edgeLine (a b : String) : String := "\"" ++ a ++ "\" -> \"" ++ b ++ "\";"

/-- The lines C8 assigns to one method, in order: one node statement,
one class→method edge, then one method→callee edge per recorded statement. -/
def methodChunk (st : ListenerState) (cname : String) (mp : String × Nat) : List String :=
  let m := st.heapM.getD mp.2 default
  [nodeLine mp.1, edgeLine cname mp.1] ++ m.statements.map (fun s => edgeLine mp.1 s.value)

/-- The lines C8 assigns to one class, in order: one node statement,
one class→callee edge per direct class statement, then the method chunks in
recorded order. -/
def classChunk (st : ListenerState) (p : String × Nat) : List String :=
  let c := st.heapC.getD p.2 default
  [nodeLine p.1] ++ c.statements.map (fun s => edgeLine p.1 s.value)
    ++ c.methods.flatMap (methodChunk st p.1)

/-- The rendered text as C8 describes it, line by line. -/
def dotSpecLines (st : ListenerState) : List String :=
  ["digraph \"callGraph\" \x7b"] ++ st.classes.flatMap (classChunk st) ++ ["\x7d"]

/-! ### Helper lemmas -/

theorem getChild_eq_some (ctx : Node) (i : Nat) (h : i < ctx.getChildCount) :
    ctx.getChild i = some (ctx.children.get ⟨i, h⟩) := by
  unfold Node.getChild
  exact List.getElem?_eq_getElem h

theorem foldl_even_texts (ctx : Node) :
    ∀ (l : List Nat), (∀ i ∈ l, i < ctx.getChildCount) → ∀ (acc : List String),
      l.foldl (fun result i =>
          if i % 2 == 0 then
            match ctx.getChild i with
            | some c => result ++ [c.text]
            | none => result
          else result) acc
        = acc ++ (l.filter (fun i => i % 2 == 0)).map
            (fun i => ((ctx.getChild i).getD default).text) := by
  intro l
  induction l with
  | nil => intro _ acc; simp
  | cons i l ih =>
    intro h acc
    have hi : i < ctx.getChildCount := h i (by simp)
    have hchild : ctx.getChild i = some (ctx.children.get ⟨i, hi⟩) :=
      getChild_eq_some ctx i hi
    rw [List.foldl_cons]
    by_cases he : (i % 2 == 0) = true
    · rw [if_pos he, hchild]
      rw [ih (fun j hj => h j (List.mem_cons_of_mem _ hj))]
      simp [List.filter_cons, he, hchild]
    · rw [if_neg he]
      rw [ih (fun j hj => h j (List.mem_cons_of_mem _ hj))]
      simp [List.filter_cons, he]

theorem length_filter_even_range :
    ∀ n : Nat, ((List.range n).filter (fun i => i % 2 == 0)).length = (n + 1) / 2 := by
  intro n
  induction n with
  | zero => rfl
  | succ n ih =>
    rw [List.range_succ, List.filter_append, List.length_append, ih]
    rcases Nat.mod_two_eq_zero_or_one n with h | h
    · simp [List.filter_cons, h]
      omega
    · simp [List.filter_cons, h]
      omega

theorem dget?_dset_self {κ α : Type} [BEq κ] [LawfulBEq κ] (m : List (κ × α)) (k : κ) (v : α) :
    dget? (dset m k v) k = some v := by
  induction m with
  | nil => simp [dset, dget?]
  | cons p rest ih =>
    unfold dset
    by_cases hb : (p.1 == k) = true
    · rw [if_pos hb]
      unfold dget?
      simp
    · rw [if_neg hb]
      unfold dget?
      rw [if_neg hb]
      exact ih

theorem dget?_dset_ne {κ α : Type} [BEq κ] [LawfulBEq κ] (m : List (κ × α)) (k k' : κ) (v : α)
    (hne : (k == k') = false) :
    dget? (dset m k v) k' = dget? m k' := by
  induction m with
  | nil => simp [dset, dget?, hne]
  | cons p rest ih =>
    unfold dset
    by_cases hb : (p.1 == k) = true
    · rw [if_pos hb]
      unfold dget?
      have : (k == k') = (p.1 == k') := by
        rw [eq_of_beq hb]
      rw [← this, hne]
      simp [hne]
    · rw [if_neg hb]
      unfold dget?
      by_cases hb' : (p.1 == k') = true
      · rw [if_pos hb', if_pos hb']
      · rw [if_neg hb', if_neg hb']
        exact ih

theorem dget?_mem {κ α : Type} [BEq κ] [LawfulBEq κ] (m : List (κ × α)) (k : κ) (v : α)
    (h : dget? m k = some v) : (k, v) ∈ m := by
  induction m with
  | nil => simp [dget?] at h
  | cons p rest ih =>
    unfold dget? at h
    by_cases hb : (p.1 == k) = true
    · rw [if_pos hb] at h
      have hk := eq_of_beq hb
      cases p with
    | mk p1 p2 =>
      simp at h
      simp at hk
      subst hk
      subst h
      exact List.mem_cons_self _ _
    · rw [if_neg hb] at h
      exact List.mem_cons_of_mem _ (ih h)

/-! ### Claims -/

/-- Claim C4: for every implements-list node: with exactly 1 child the decoded
sequence is the singleton of that child's text; with `k ≥ 2` children it is
the texts of the children at even indices `0, 2, 4, …` in source order, of
length `⌈k/2⌉ = (k+1)/2`. -/
theorem claim_C4 (ctx : Node) :
    (ctx.getChildCount = 1 →
       parse_implements_block ctx = [((ctx.getChild 0).getD default).text])
    ∧ (2 ≤ ctx.getChildCount →
       parse_implements_block ctx =
         ((List.range ctx.getChildCount).filter (fun i => i % 2 == 0)).map
           (fun i => ((ctx.getChild i).getD default).text)
       ∧ (parse_implements_block ctx).length = (ctx.getChildCount + 1) / 2) := by
  constructor
  · intro h1
    have h0 : 0 < ctx.getChildCount := by omega
    have hchild : ctx.getChild 0 = some (ctx.children.get ⟨0, h0⟩) :=
      getChild_eq_some ctx 0 h0
    unfold parse_implements_block
    simp [h1, hchild]
  · intro h2
    have hb1 : (ctx.getChildCount == 1) = false := by
      simp
      omega
    have hb2 : ctx.getChildCount > 1 := by omega
    have heq : parse_implements_block ctx =
        ((List.range ctx.getChildCount).filter (fun i => i % 2 == 0)).map
          (fun i => ((ctx.getChild i).getD default).text) := by
      unfold parse_implements_block
      rw [if_neg (by simp [hb1]), if_pos (by simpa using hb2)]
      rw [foldl_even_texts ctx (List.range ctx.getChildCount)
        (fun i hi => List.mem_range.mp hi) []]
      simp
    refine ⟨heq, ?_⟩
    rw [heq, List.length_map, length_filter_even_range]

/-- Witness for C4 at concrete inputs: a 1-child list `[I]` and a 3-child
list `[A, ",", B]`. -/
theorem claim_C4_witness :
    parse_implements_block (Node.node "I" 0 0 0 [Node.node "I" 0 0 0 []]) = ["I"]
    ∧ parse_implements_block (Node.node "A,B" 0 0 0
        [Node.node "A" 0 0 0 [], Node.node "," 0 0 0 [], Node.node "B" 0 0 0 []]) = ["A", "B"]
    ∧ (parse_implements_block (Node.node "A,B" 0 0 0
        [Node.node "A" 0 0 0 [], Node.node "," 0 0 0 [], Node.node "B" 0 0 0 []])).length = 2 := by
  refine ⟨?_, ?_, ?_⟩
  · rw [(claim_C4 (Node.node "I" 0 0 0 [Node.node "I" 0 0 0 []])).1 (by rfl)]
    rfl
  · rw [((claim_C4 (Node.node "A,B" 0 0 0
        [Node.node "A" 0 0 0 [], Node.node "," 0 0 0 [], Node.node "B" 0 0 0 []])).2
        (by decide)).1]
    rfl
  · rw [((claim_C4 (Node.node "A,B" 0 0 0
        [Node.node "A" 0 0 0 [], Node.node "," 0 0 0 [], Node.node "B" 0 0 0 []])).2
        (by decide)).2]
    rfl

/-- Counterexample to C2: on a concrete 3-child class header the decoder
returns `implements = ''` (the empty *string* the variable was initialised
to, `Implements.str ""`), not the empty *sequence of strings*
(`Implements.list []`) the claim states. -/
theorem claim_C2_counterexample :
    parse_class_block initState c2node = .ok ("A", "", Implements.str "")
    ∧ parse_class_block initState c2node ≠ .ok ("A", "", Implements.list []) := by
  constructor
  · rfl
  · intro h
    have h1 : parse_class_block initState c2node = .ok ("A", "", Implements.str "") := rfl
    rw [h1] at h
    exact absurd (Except.ok.inj h)
      (by decide : ("A", "", Implements.str "") ≠ ("A", "", Implements.list []))

/-- Claim C2 as amended: for every class-header node with exactly 3 children
whose child 1 has non-empty text, `parse_class_block` returns
`(child[1].text, extends = "", implements = '')` — the implements component
is the empty string the local variable was initialised to (it denotes "no
interfaces" but is not a list value). -/
theorem claim_C2 (st : ListenerState) (ctx : Node) (c1 : Node)
    (h3 : ctx.getChildCount = 3) (hc : ctx.getChild 1 = some c1) (hn : c1.text ≠ "") :
    parse_class_block st ctx = .ok (c1.text, "", Implements.str "") := by
  unfold parse_class_block parse_class_block_core childText
  rw [hc]
  simp [h3, hn, Bind.bind, Except.bind]

/-- Witness for C2 (amended) at the concrete node `class A { }`. -/
theorem claim_C2_witness :
    parse_class_block initState c2node = .ok ("A", "", Implements.str "") :=
  claim_C2 initState c2node (.node "A" 1 6 1 []) (by rfl) (by rfl) (by decide)

/-! ### The renderer's output shape (C8) -/

theorem foldl_append_eq_flatMap {α β : Type} (B : List β → α → List β) (g : α → List β)
    (hB : ∀ a x, B a x = a ++ g x) :
    ∀ (l : List α) (a0 : List β), l.foldl B a0 = a0 ++ l.flatMap g := by
  intro l
  induction l with
  | nil => intro a0; simp
  | cons x l ih =>
    intro a0
    rw [List.foldl_cons, hB, ih, List.flatMap_cons, List.append_assoc]

theorem foldl_append_eq_map {α β : Type} (B : List β → α → List β) (f : α → β)
    (hB : ∀ a x, B a x = a ++ [f x]) :
    ∀ (l : List α) (a0 : List β), l.foldl B a0 = a0 ++ l.map f := by
  intro l
  induction l with
  | nil => intro a0; simp
  | cons x l ih =>
    intro a0
    rw [List.foldl_cons, hB, ih]
    simp

theorem dot_method_body (st : ListenerState) (cname : String) (a : List String)
    (mp : String × Nat) :
    (st.heapM.getD mp.2 default).statements.foldl
        (fun a2 stmt => a2 ++ ["\"" ++ mp.1 ++ "\" -> \"" ++ stmt.value ++ "\";"])
        (a ++ ["\"" ++ mp.1 ++ "\""] ++ ["\"" ++ cname ++ "\" -> \"" ++ mp.1 ++ "\";"])
      = a ++ methodChunk st cname mp := by
  rw [foldl_append_eq_map
    (fun (a2 : List String) (stmt : Statement) =>
      a2 ++ ["\"" ++ mp.1 ++ "\" -> \"" ++ stmt.value ++ "\";"])
    (fun stmt => edgeLine mp.1 stmt.value) (fun a x => rfl)]
  simp [methodChunk, nodeLine, edgeLine]

theorem dot_class_body (st : ListenerState) (acc : List String) (p : String × Nat) :
    (st.heapC.getD p.2 default).methods.foldl
        (fun a mp =>
          let method := st.heapM.getD mp.2 default
          let a := a ++ ["\"" ++ mp.1 ++ "\""]
          let a := a ++ ["\"" ++ p.1 ++ "\" -> \"" ++ mp.1 ++ "\";"]
          method.statements.foldl
            (fun a2 stmt => a2 ++ ["\"" ++ mp.1 ++ "\" -> \"" ++ stmt.value ++ "\";"]) a)
        ((st.heapC.getD p.2 default).statements.foldl
          (fun a stmt => a ++ ["\"" ++ p.1 ++ "\" -> \"" ++ stmt.value ++ "\";"])
          (acc ++ ["\"" ++ p.1 ++ "\""]))
      = acc ++ classChunk st p := by
  rw [foldl_append_eq_map
    (fun (a : List String) (stmt : Statement) =>
      a ++ ["\"" ++ p.1 ++ "\" -> \"" ++ stmt.value ++ "\";"])
    (fun stmt => edgeLine p.1 stmt.value) (fun a x => rfl)]
  rw [foldl_append_eq_flatMap
    (fun (a : List String) (mp : String × Nat) =>
      let method := st.heapM.getD mp.2 default
      let a := a ++ ["\"" ++ mp.1 ++ "\""]
      let a := a ++ ["\"" ++ p.1 ++ "\" -> \"" ++ mp.1 ++ "\";"]
      method.statements.foldl
        (fun a2 stmt => a2 ++ ["\"" ++ mp.1 ++ "\" -> \"" ++ stmt.value ++ "\";"]) a)
    (methodChunk st p.1)
    (fun a mp => dot_method_body st p.1 a mp)]
  simp [classChunk, nodeLine]

theorem edgeLine_injective (a : String) : Function.Injective (edgeLine a) := by
  intro b1 b2 h
  unfold edgeLine at h
  have hd := congrArg String.data h
  simp only [String.data_append, List.append_assoc] at hd
  have hd' := List.append_cancel_right
    (List.append_cancel_left (List.append_cancel_left (List.append_cancel_left hd)))
  cases b1
  cases b2
  exact congrArg String.mk hd'

/-- Claim C8: the rendered text is `digraph "callGraph" {` followed, for each
class in recorded order, by one node statement, one `"<class>" -> "<callee>";`
edge per direct class statement, then for each method in recorded order one
node statement, one `"<class>" -> "<method>";` edge and one
`"<method>" -> "<callee>";` edge per method statement, closed by `}` — with
edges produced by `List.map` over the recorded statements, so repeated edges
are kept and (second conjunct) the multiplicity of an edge line equals the
number of recorded statements with that callee text. -/
theorem claim_C8 (st : ListenerState) :
    dot st = String.intercalate "\n" (dotSpecLines st)
    ∧ (∀ (a v : String) (ss : List Statement),
        (ss.map (fun s => edgeLine a s.value)).count (edgeLine a v)
          = (ss.map Statement.value).count v) := by
  constructor
  · unfold dot dotSpecLines
    show String.intercalate "\n"
      (List.foldl _ ["digraph \"callGraph\" \x7b"] st.classes ++ ["\x7d"]) = _
    rw [foldl_append_eq_flatMap
      (fun (acc : List String) (p : String × Nat) =>
        let name := p.1
        let class_ := st.heapC.getD p.2 default
        let acc := acc ++ ["\"" ++ name ++ "\""]
        let acc := class_.statements.foldl
          (fun a stmt => a ++ ["\"" ++ name ++ "\" -> \"" ++ stmt.value ++ "\";"]) acc
        class_.methods.foldl (fun a mp =>
          let method := st.heapM.getD mp.2 default
          let a := a ++ ["\"" ++ mp.1 ++ "\""]
          let a := a ++ ["\"" ++ name ++ "\" -> \"" ++ mp.1 ++ "\";"]
          method.statements.foldl
            (fun a2 stmt => a2 ++ ["\"" ++ mp.1 ++ "\" -> \"" ++ stmt.value ++ "\";"]) a) acc)
      (classChunk st) (fun acc p => dot_class_body st acc p)]
  · intro a v ss
    have h1 : ss.map (fun s => edgeLine a s.value)
        = (ss.map Statement.value).map (edgeLine a) := by
      rw [List.map_map]
      rfl
    rw [h1, List.count_map_of_injective _ (edgeLine a) (edgeLine_injective a) v]

/-- Claim C9: the pipeline writes the rendered graph only after the entire
traversal has completed: when the walk raises (a StructuralError, a
ScopeViolation, or any other exception) `process` propagates the error and
produces no written output; on success the written content is exactly the
rendered graph of the completed model.  No partial model is ever written. -/
theorem claim_C9 (notifs : List Notif) (output_path : Bool) :
    (∀ e, runL initState notifs = .error e → process notifs output_path = .error e)
    ∧ (∀ st, runL initState notifs = .ok st →
        process notifs output_path = .ok (if output_path then some (dot st) else none)) := by
  constructor
  · intro e he
    unfold process
    rw [he]
    rfl
  · intro st hst
    unfold process
    rw [hst]
    cases output_path
    · rfl
    · rfl

/-- Witness for C9: a file whose only notification is an unrecognised
4-child class header; the traversal raises and no output is produced. -/
theorem claim_C9_witness :
    process [Notif.enterClass badHeader] true
      = .error (.structural "Class name is not found") :=
  (claim_C9 [Notif.enterClass badHeader] true).1
    (.structural "Class name is not found") (by rfl)

/-- Counterexample to C1: a batch (directory) with `N = 1` source file,
`M = 1` of which triggers a StructuralError.  The claim states the batch
completes, writes `N - M = 0` outputs and *reports one failure*; instead
`main` propagates the StructuralError (nothing catches it in `create`, and
`asyncio.gather` is used with its default `return_exceptions=False`), so the
batch aborts with the exception rather than completing with a logged
failure. -/
theorem claim_C1_counterexample :
    main [[Notif.enterClass badHeader]]
      = .error (.structural "Class name is not found") := by
  rfl

/-- Claim C1 as amended: per-file errors are *not* caught at the per-file
pipeline boundary: (1) any traversal error propagates out of `create`
uncaught; (2) a batch whose files all succeed completes with one logged
outcome per file; (3) a batch containing a failing file propagates that
file's error out of the gathered batch, aborting it, instead of converting
it into a logged per-file outcome. -/
theorem claim_C1 :
    (∀ notifs e, runL initState notifs = .error e → create notifs = .error e)
    ∧ (∀ files : List (List Notif), (∀ f ∈ files, ∃ o, create f = .ok o) →
        ∃ outs : List Outcome, main files = .ok outs ∧ outs.length = files.length)
    ∧ (∀ (pre : List (List Notif)) (f : List Notif) (post : List (List Notif)) (e : PyErr),
        (∀ g ∈ pre, ∃ o, create g = .ok o) → create f = .error e →
        main (pre ++ f :: post) = .error e) := by
  refine ⟨?_, ?_, ?_⟩
  · intro notifs e he
    unfold create process
    rw [he]
    rfl
  · intro files
    induction files with
    | nil => intro _; exact ⟨[], rfl, rfl⟩
    | cons f fs ih =>
      intro h
      obtain ⟨o, ho⟩ := h f (by simp)
      obtain ⟨outs, houts, hlen⟩ := ih (fun g hg => h g (by simp [hg]))
      refine ⟨o :: outs, ?_, by simp [hlen]⟩
      unfold main at houts ⊢
      rw [List.map_cons]
      unfold gather
      rw [ho, houts]
      rfl
  · intro pre f post e
    induction pre with
    | nil =>
      intro _ hf
      unfold main
      rw [List.nil_append, List.map_cons]
      unfold gather
      rw [hf]
      rfl
    | cons g pre ih =>
      intro hpre hf
      obtain ⟨o, ho⟩ := hpre g (by simp)
      have htail := ih (fun g hg => hpre g (by simp [hg])) hf
      unfold main at htail ⊢
      rw [List.cons_append, List.map_cons]
      unfold gather
      rw [ho, htail]
      rfl

/-- Witness for C1 (amended), part (3) applied at a concrete batch: one
succeeding empty file before, one malformed file, one empty file after; the
malformed file's error aborts the whole batch. -/
theorem claim_C1_witness :
    main [[], [Notif.enterClass badHeader], []]
      = .error (.structural "Class name is not found") :=
  claim_C1.2.2 [[]] [Notif.enterClass badHeader] [[]]
    (.structural "Class name is not found")
    (by
      intro g hg
      rw [List.mem_singleton] at hg
      subst hg
      exact ⟨Outcome.success, rfl⟩)
    (by rfl)

/-- On a 2-child header the decoder answers with the name of the class open
at the *current* (pre-increment) depth. -/
theorem parse_class_block_two (st : ListenerState) (ctx : Node) (cid : Nat)
    (h2 : ctx.getChildCount = 2)
    (hdc : dget? st.deep_class st.deep = some cid)
    (hname : (st.heapC.getD cid default).name ≠ "") :
    parse_class_block st ctx = .ok ((st.heapC.getD cid default).name, "", .str "") := by
  have h1 : 1 < ctx.getChildCount := by omega
  have hc1 := getChild_eq_some ctx 1 h1
  unfold parse_class_block parse_class_block_core childText
  rw [hc1]
  simp [h2, hdc, hname, Bind.bind, Except.bind]
  rw [← List.getD_eq_getElem?_getD]
  exact hname

/-- What a successful `enterClassDeclaration` does to the state, given the
decoded header. -/
theorem enterClass_ok (st : ListenerState) (ctx : Node) (name ext : String)
    (impl : Implements)
    (hp : parse_class_block st ctx = .ok (name, ext, impl)) :
    enterClassDeclaration st ctx = .ok { st with
      heapC := st.heapC ++ [{ name := name, extends_ := ext, implements := impl,
                              fields := [], methods := [], statements := [] }],
      deep := st.deep + 1,
      classes := dset st.classes name st.heapC.length,
      deep_class := dset st.deep_class (st.deep + 1) st.heapC.length } := by
  have hc : ∃ c, ctx.getChild 1 = some c := by
    cases hcc : ctx.getChild 1 with
    | some c => exact ⟨c, rfl⟩
    | none =>
      exfalso
      unfold parse_class_block childText at hp
      rw [hcc] at hp
      simp [Bind.bind, Except.bind] at hp
  obtain ⟨c, hcc⟩ := hc
  unfold enterClassDeclaration childText
  rw [hcc, hp]
  rfl

/-- Claim C10: a 2-child class-header notification arriving while a class is
open resolves the inherited name against the *pre-increment* depth — so it
is the name of the enclosing class — then allocates a fresh, empty
`ClassDecl` and rebinds `classes[name]` to it, overwriting the enclosing
class's entry; the enclosing class's previously recorded
fields/methods/statements are no longer reachable from the model under that
name. -/
theorem claim_C10 (st : ListenerState) (ctx : Node) (cid : Nat)
    (hdc : dget? st.deep_class st.deep = some cid)
    (h2 : ctx.getChildCount = 2)
    (hname : (st.heapC.getD cid default).name ≠ "")
    (hwf : ∀ q ∈ st.classes, q.2 < st.heapC.length) :
    ∃ st', enterClassDeclaration st ctx = .ok st'
      ∧ st'.deep = st.deep + 1
      ∧ dget? st'.classes (st.heapC.getD cid default).name = some st.heapC.length
      ∧ st'.heapC.getD st.heapC.length default =
          { name := (st.heapC.getD cid default).name, extends_ := "",
            implements := .str "", fields := [], methods := [], statements := [] }
      ∧ dget? st'.deep_class (st.deep + 1) = some st.heapC.length
      ∧ (∀ oldcid, dget? st.classes (st.heapC.getD cid default).name = some oldcid →
          dget? st'.classes (st.heapC.getD cid default).name ≠ some oldcid) := by
  have hp := parse_class_block_two st ctx cid h2 hdc hname
  refine ⟨_, enterClass_ok st ctx _ "" (.str "") hp, rfl, ?_, ?_, ?_, ?_⟩
  · exact dget?_dset_self _ _ _
  · rw [List.getD_eq_getElem?_getD, List.getElem?_concat_length]
    rfl
  · exact dget?_dset_self _ _ _
  · intro oldcid hold
    have hmem := dget?_mem _ _ _ hold
    have hlt := hwf _ hmem
    rw [dget?_dset_self]
    intro hcontra
    have : st.heapC.length = oldcid := by
      injection hcontra
    omega

/-- Witness for C10: after `class A { }` is open, a 2-child header inherits
the name `A` and rebinds `classes["A"]` to the fresh empty class object
(heap id 1), hiding the original object (heap id 0). -/
theorem claim_C10_witness :
    ∃ st', enterClassDeclaration stateAfterA body2node = .ok st'
      ∧ st'.deep = stateAfterA.deep + 1
      ∧ dget? st'.classes (stateAfterA.heapC.getD 0 default).name
          = some stateAfterA.heapC.length
      ∧ st'.heapC.getD stateAfterA.heapC.length default =
          { name := (stateAfterA.heapC.getD 0 default).name, extends_ := "",
            implements := .str "", fields := [], methods := [], statements := [] }
      ∧ dget? st'.deep_class (stateAfterA.deep + 1) = some stateAfterA.heapC.length
      ∧ (∀ oldcid, dget? stateAfterA.classes (stateAfterA.heapC.getD 0 default).name
            = some oldcid →
          dget? st'.classes (stateAfterA.heapC.getD 0 default).name ≠ some oldcid) :=
  claim_C10 stateAfterA body2node 0 (by rfl) (by rfl) (by decide) (by decide)

/-- Counterexample to C5: in the reachable state after
`[enterClass (class A), enterClass (2-child), exitClass]` the class
currently open at the present depth is heap object 0, but the method-call
notification (no method open) appends the Statement to heap object 1 — the
object `classes["A"]` was rebound to — leaving object 0's statement list
empty.  This contradicts the claim that the Statement is appended to the
statements of the class currently open at the present depth. -/
theorem claim_C5_counterexample :
    runL initState c5stream = .ok c5state
    ∧ c5state.current_method = none
    ∧ dget? c5state.deep_class c5state.deep = some 0
    ∧ (c5state.heapC.getD 0 default).statements = []
    ∧ (c5state.heapC.getD 1 default).statements = [⟨"foo", 4, 2⟩] := by
  exact ⟨by rfl, by rfl, by rfl, by rfl, by rfl⟩

/-- Claim C5 as amended: the listener builds a Statement from the call node's
first child's text and the node's start position; if a method is open the
Statement is appended to that method object, otherwise it is appended to the
`classes` entry registered under the *name* of the class open at the present
depth — which is the open class itself only as long as no later same-named
declaration has rebound that entry. -/
theorem claim_C5 (st : ListenerState) (ctx : Node) (c0 : Node)
    (hc0 : ctx.getChild 0 = some c0) :
    (∀ mid, st.current_method = some mid →
      enterMethodCall st ctx = .ok { st with
        heapM := st.heapM.set mid
          { st.heapM.getD mid default with statements :=
              (st.heapM.getD mid default).statements ++ [⟨c0.text, ctx.line, ctx.column⟩] } })
    ∧ (st.current_method = none → ∀ cid cid2,
        dget? st.deep_class st.deep = some cid →
        dget? st.classes (st.heapC.getD cid default).name = some cid2 →
        enterMethodCall st ctx = .ok { st with
          heapC := st.heapC.set cid2
            { st.heapC.getD cid2 default with statements :=
                (st.heapC.getD cid2 default).statements ++ [⟨c0.text, ctx.line, ctx.column⟩] } }) := by
  constructor
  · intro mid hm
    unfold enterMethodCall childText
    rw [hc0, hm]
    rfl
  · intro hm cid cid2 hdc hcl
    unfold enterMethodCall childText
    simp only [hc0, hm, hdc, hcl]
    rfl

/-- Witness for C5 (amended) at the shadowed state: the call is appended to
the `classes["A"]` object (heap id 1). -/
theorem claim_C5_witness :
    enterMethodCall shadowState callNode = .ok { shadowState with
      heapC := shadowState.heapC.set 1
        { shadowState.heapC.getD 1 default with statements :=
            (shadowState.heapC.getD 1 default).statements ++ [⟨"foo", 4, 2⟩] } } :=
  (claim_C5 shadowState callNode (Node.leaf "foo") (by rfl)).2 (by rfl) 0 1 (by rfl) (by rfl)

/-- Counterexample to C7: in the reachable state after
`[enterClass (class A), enterClass (2-child), exitClass]` a field
declaration whose grandparent chain re-derives `A` passes the consistency
check (the scope-held class at depth 1 is named `A`), but the `FieldType` is
appended to heap object 1 — the object `classes["A"]` was rebound to — not
to the scope-held class (heap object 0), whose field list stays empty.  This
contradicts the claim that on name agreement the Field is appended to the
class the scope tracker currently holds. -/
theorem claim_C7_counterexample :
    runL initState c7stream = .ok c7state
    ∧ dget? c7state.deep_class c7state.deep = some 0
    ∧ (c7state.heapC.getD 0 default).name = "A"
    ∧ (c7state.heapC.getD 0 default).fields = []
    ∧ (c7state.heapC.getD 1 default).fields = [⟨"int", "x=1"⟩] := by
  exact ⟨by rfl, by rfl, by rfl, by rfl, by rfl⟩

/-- Claim C7 as amended: given that re-deriving the class header from the
grandparent chain succeeds and a class is open at the present depth, the
handler fails with a StructuralError exactly when the re-derived name
differs from the scope-held class's name (a name agreement never produces a
StructuralError); on agreement it appends a Field built from the declaration
node's first two children (type, declarator text) to the `classes` entry
registered under that name — the scope-held object itself only as long as no
later same-named declaration has rebound that entry. -/
theorem claim_C7 (st : ListenerState) (ctx gparent : Node) (cname ext : String)
    (impl : Implements) (cid : Nat)
    (hp : parse_class_block st gparent = .ok (cname, ext, impl))
    (hdc : dget? st.deep_class st.deep = some cid) :
    (cname ≠ (st.heapC.getD cid default).name →
      enterFieldDeclaration st ctx gparent = .error (.structural
        ("Class name is " ++ cname ++ " is not equal " ++ (st.heapC.getD cid default).name)))
    ∧ (∀ m, enterFieldDeclaration st ctx gparent = .error (.structural m) →
        cname ≠ (st.heapC.getD cid default).name)
    ∧ (cname = (st.heapC.getD cid default).name → ∀ c0 c1 cid2,
        ctx.getChild 0 = some c0 → ctx.getChild 1 = some c1 →
        dget? st.classes (st.heapC.getD cid default).name = some cid2 →
        enterFieldDeclaration st ctx gparent = .ok { st with
          heapC := st.heapC.set cid2
            { st.heapC.getD cid2 default with fields :=
                (st.heapC.getD cid2 default).fields ++ [⟨c0.text, c1.text⟩] } }) := by
  refine ⟨?_, ?_, ?_⟩
  · intro hne
    have hb : ((cname != (st.heapC.getD cid default).name) = true) := by
      simpa using hne
    unfold enterFieldDeclaration
    simp only [hp, hdc, hb, Bind.bind, Except.bind, if_true]
  · intro m hm he
    have hb : ((cname != (st.heapC.getD cid default).name) = false) := by
      simpa using he
    unfold enterFieldDeclaration at hm
    simp only [hp, hdc, hb, Bind.bind, Except.bind, if_false] at hm
    cases hcl : dget? st.classes (st.heapC.getD cid default).name with
    | none =>
      simp only [hcl] at hm
      simp at hm
    | some cid2 =>
      simp only [hcl] at hm
      cases hc0 : ctx.getChild 0 with
      | none =>
        unfold childText at hm
        simp only [hc0] at hm
        simp at hm
      | some c0 =>
        unfold childText at hm
        simp only [hc0] at hm
        cases hc1 : ctx.getChild 1 with
        | none =>
          simp only [hc1] at hm
          simp at hm
        | some c1 =>
          simp only [hc1] at hm
          simp at hm
  · intro he c0 c1 cid2 hc0 hc1 hcl
    have hb : ((cname != (st.heapC.getD cid default).name) = false) := by
      simpa using he
    unfold enterFieldDeclaration childText
    simp only [hp, hdc, hb, Bind.bind, Except.bind, if_false, hcl, hc0, hc1]
    rfl

/-- Witness for C7 (amended): in the shadowed state the re-derived name `A`
agrees with the scope-held class, and the Field goes to the `classes["A"]`
object (heap id 1). -/
theorem claim_C7_witness :
    enterFieldDeclaration shadowState fieldNode c2node = .ok { shadowState with
      heapC := shadowState.heapC.set 1
        { shadowState.heapC.getD 1 default with fields :=
            (shadowState.heapC.getD 1 default).fields ++ [⟨"int", "x=1"⟩] } } :=
  (claim_C7 shadowState fieldNode c2node "A" "" (.str "") 0 (by rfl) (by rfl)).2.2
    (by rfl) (Node.leaf "int") (Node.leaf "x=1") 1 (by rfl) (by rfl) (by rfl)

/-! ### More dictionary and heap lemmas -/

theorem getD_set_self {α : Type} [Inhabited α] (l : List α) (i : Nat) (a : α)
    (h : i < l.length) : (l.set i a).getD i default = a := by
  rw [List.getD_eq_getElem?_getD, List.getElem?_set]
  simp [h]

theorem getD_concat_length {α : Type} [Inhabited α] (l : List α) (a : α) :
    (l ++ [a]).getD l.length default = a := by
  rw [List.getD_eq_getElem?_getD, List.getElem?_concat_length]
  rfl

theorem getD_append_left {α : Type} [Inhabited α] (l1 l2 : List α) (i : Nat)
    (h : i < l1.length) : (l1 ++ l2).getD i default = l1.getD i default := by
  rw [List.getD_eq_getElem?_getD, List.getD_eq_getElem?_getD, List.getElem?_append]
  simp [h]

theorem getD_set_ne {α : Type} [Inhabited α] (l : List α) (i j : Nat) (a : α)
    (h : i ≠ j) : (l.set i a).getD j default = l.getD j default := by
  rw [List.getD_eq_getElem?_getD, List.getD_eq_getElem?_getD, List.getElem?_set]
  simp [h]

theorem dget?_none_forall {κ α : Type} [BEq κ] (m : List (κ × α)) (k : κ)
    (h : dget? m k = none) : ∀ p ∈ m, (p.1 == k) = false := by
  induction m with
  | nil => intro p hp; simp at hp
  | cons q rest ih =>
    unfold dget? at h
    by_cases hb : (q.1 == k) = true
    · rw [if_pos hb] at h
      simp at h
    · rw [if_neg hb] at h
      intro p hp
      rcases List.mem_cons.mp hp with rfl | hp2
      · simpa using hb
      · exact ih h p hp2

theorem dset_of_none {κ α : Type} [BEq κ] (m : List (κ × α)) (k : κ) (v : α)
    (h : dget? m k = none) : dset m k v = m ++ [(k, v)] := by
  induction m with
  | nil => rfl
  | cons q rest ih =>
    unfold dget? at h
    unfold dset
    by_cases hb : (q.1 == k) = true
    · rw [if_pos hb] at h
      simp at h
    · rw [if_neg hb] at h
      rw [if_neg hb, ih h]
      rfl

theorem filter_key_dset_none {κ α : Type} [BEq κ] [LawfulBEq κ] (m : List (κ × α)) (k : κ) (v : α)
    (h : dget? m k = none) :
    ((dset m k v).filter (fun q => q.1 == k)).length = 1 := by
  rw [dset_of_none m k v h, List.filter_append]
  have hnil : m.filter (fun q => q.1 == k) = [] :=
    List.filter_eq_nil_iff.mpr (fun p hp => by simp [dget?_none_forall m k h p hp])
  rw [hnil]
  simp

/-! ### Characterization of the method-declaration handler -/

/-- The fresh branch of `enterMethodDeclaration`. -/
theorem enterMethod_fresh (st : ListenerState) (ctx : Node) (d cid cid2 : Nat)
    (r0 c1 p2 : Node) (ps : List ParmType)
    (hc0 : ctx.getChild 0 = some r0) (hc1 : ctx.getChild 1 = some c1)
    (hc2 : ctx.getChild 2 = some p2)
    (hdc : dget? st.deep_class st.deep = some cid)
    (hfresh : dget? (st.heapC.getD cid default).methods c1.text = none)
    (hcl : dget? st.classes (st.heapC.getD cid default).name = some cid2)
    (hps : parse_method_params_block p2 = .ok ps) :
    enterMethodDeclaration st ctx d = .ok { st with
      heapM := st.heapM ++ [(⟨c1.text, ctx.line, ctx.stopLine, d, ps, r0.text, []⟩ : JavaMethod)],
      heapC := st.heapC.set cid2 { st.heapC.getD cid2 default with methods := dset (st.heapC.getD cid2 default).methods c1.text st.heapM.length },
      current_method := some st.heapM.length } := by
  have hb : (dget? (st.heapC.getD cid default).methods c1.text).isSome = false := by
    rw [hfresh]
    rfl
  unfold enterMethodDeclaration childText
  simp only [hc1, hdc, hb, hc0, hc2, hps, hcl, Bind.bind, Except.bind, if_false]
  rfl

/-- The duplicate branch of `enterMethodDeclaration`: only a warning. -/
theorem enterMethod_dup (st : ListenerState) (ctx : Node) (d cid : Nat) (c1 : Node)
    (hc1 : ctx.getChild 1 = some c1)
    (hdc : dget? st.deep_class st.deep = some cid)
    (hdup : (dget? (st.heapC.getD cid default).methods c1.text).isSome = true) :
    enterMethodDeclaration st ctx d = .ok { st with
      warnings := st.warnings
        ++ [c1.text ++ " is a overloading, ignore it in this version."] } := by
  unfold enterMethodDeclaration childText
  simp only [hc1, hdc, hdup, Bind.bind, Except.bind, if_true]

/-- Lemma: `exitMethodDeclaration` only clears the current-method pointer. -/
theorem exitMethod_ok (st : ListenerState) (ctx : Node) (c1 : Node)
    (hc1 : ctx.getChild 1 = some c1) :
    exitMethodDeclaration st ctx = .ok { st with current_method := none } := by
  unfold exitMethodDeclaration childText
  rw [hc1]
  rfl

/-- Peeling one successful step off a walk. -/
theorem runL_cons_ok (a b : ListenerState) (n : Notif) (ns : List Notif)
    (h : step a n = .ok b) : runL a (n :: ns) = runL b ns := by
  unfold runL
  rw [List.foldlM_cons, h]
  rfl

/-- Claim C3: (first conjunct) a method-declaration notification whose name
(text of child 1) already keys the scope-tracked class's methods mapping
changes nothing except appending one warning: no Method object is created
(`heapM` untouched), no mapping entry is touched (`heapC` untouched), the
current-method pointer is not set to the duplicate, and the handler returns
normally so the traversal continues.  (Second conjunct) hence, in a normal
(un-shadowed) state, a class with two method declarations of the same name
yields exactly one Method entry of that name — the first-encountered
declaration — plus one recorded warning. -/
theorem claim_C3 :
    (∀ (st : ListenerState) (ctx : Node) (d cid : Nat) (c1 : Node),
      ctx.getChild 1 = some c1 →
      dget? st.deep_class st.deep = some cid →
      (dget? (st.heapC.getD cid default).methods c1.text).isSome = true →
      enterMethodDeclaration st ctx d = .ok { st with
        warnings := st.warnings
          ++ [c1.text ++ " is a overloading, ignore it in this version."] })
    ∧ (∀ (st : ListenerState) (cid : Nat) (ctx1 ctx2 ectx : Node) (d1 d2 : Nat)
        (r0 c1 p2 c1b ec : Node) (ps : List ParmType),
        ctx1.getChild 0 = some r0 → ctx1.getChild 1 = some c1 → ctx1.getChild 2 = some p2 →
        parse_method_params_block p2 = .ok ps →
        ctx2.getChild 1 = some c1b → c1b.text = c1.text →
        ectx.getChild 1 = some ec →
        dget? st.deep_class st.deep = some cid →
        cid < st.heapC.length →
        dget? st.classes (st.heapC.getD cid default).name = some cid →
        dget? (st.heapC.getD cid default).methods c1.text = none →
        ∃ st', runL st [.enterMethod ctx1 d1, .exitMethod ectx, .enterMethod ctx2 d2] = .ok st'
          ∧ ((st'.heapC.getD cid default).methods.filter (fun q => q.1 == c1.text)).length = 1
          ∧ dget? (st'.heapC.getD cid default).methods c1.text = some st.heapM.length
          ∧ st'.heapM.getD st.heapM.length default =
              (⟨c1.text, ctx1.line, ctx1.stopLine, d1, ps, r0.text, []⟩ : JavaMethod)
          ∧ st'.warnings = st.warnings
              ++ [c1.text ++ " is a overloading, ignore it in this version."]) := by
  constructor
  · intro st ctx d cid c1 hc1 hdc hdup
    exact enterMethod_dup st ctx d cid c1 hc1 hdc hdup
  · intro st cid ctx1 ctx2 ectx d1 d2 r0 c1 p2 c1b ec ps
      hc0 hc1 hc2 hps hc1b htext hec hdc hlt hcl hfresh
    have h1 := enterMethod_fresh st ctx1 d1 cid cid r0 c1 p2 ps hc0 hc1 hc2 hdc hfresh hcl hps
    have hgetd : ((st.heapC.set cid { st.heapC.getD cid default with methods := dset (st.heapC.getD cid default).methods c1.text st.heapM.length }).getD cid default)
        = { st.heapC.getD cid default with methods := dset (st.heapC.getD cid default).methods c1.text st.heapM.length } :=
      getD_set_self _ _ _ hlt
    have h2 : exitMethodDeclaration ({ st with
        heapM := st.heapM ++ [(⟨c1.text, ctx1.line, ctx1.stopLine, d1, ps, r0.text, []⟩ : JavaMethod)],
        heapC := st.heapC.set cid { st.heapC.getD cid default with methods := dset (st.heapC.getD cid default).methods c1.text st.heapM.length },
        current_method := some st.heapM.length } : ListenerState) ectx
        = .ok { st with
        heapM := st.heapM ++ [(⟨c1.text, ctx1.line, ctx1.stopLine, d1, ps, r0.text, []⟩ : JavaMethod)],
        heapC := st.heapC.set cid { st.heapC.getD cid default with methods := dset (st.heapC.getD cid default).methods c1.text st.heapM.length },
        current_method := none } :=
      exitMethod_ok _ ectx ec hec
    have h3 : enterMethodDeclaration ({ st with
        heapM := st.heapM ++ [(⟨c1.text, ctx1.line, ctx1.stopLine, d1, ps, r0.text, []⟩ : JavaMethod)],
        heapC := st.heapC.set cid { st.heapC.getD cid default with methods := dset (st.heapC.getD cid default).methods c1.text st.heapM.length },
        current_method := none } : ListenerState) ctx2 d2
        = .ok { st with
        heapM := st.heapM ++ [(⟨c1.text, ctx1.line, ctx1.stopLine, d1, ps, r0.text, []⟩ : JavaMethod)],
        heapC := st.heapC.set cid { st.heapC.getD cid default with methods := dset (st.heapC.getD cid default).methods c1.text st.heapM.length },
        current_method := none,
        warnings := st.warnings ++ [c1.text ++ " is a overloading, ignore it in this version."] } := by
      have hdup : (dget? (((st.heapC.set cid { st.heapC.getD cid default with methods := dset (st.heapC.getD cid default).methods c1.text st.heapM.length })).getD cid default).methods c1b.text).isSome = true := by
        rw [hgetd, htext, dget?_dset_self]
        rfl
      have hd := enterMethod_dup ({ st with
        heapM := st.heapM ++ [(⟨c1.text, ctx1.line, ctx1.stopLine, d1, ps, r0.text, []⟩ : JavaMethod)],
        heapC := st.heapC.set cid { st.heapC.getD cid default with methods := dset (st.heapC.getD cid default).methods c1.text st.heapM.length },
        current_method := none } : ListenerState) ctx2 d2 cid c1b hc1b hdc hdup
      rwa [htext] at hd
    refine ⟨{ st with
      heapM := st.heapM ++ [(⟨c1.text, ctx1.line, ctx1.stopLine, d1, ps, r0.text, []⟩ : JavaMethod)],
      heapC := st.heapC.set cid { st.heapC.getD cid default with methods := dset (st.heapC.getD cid default).methods c1.text st.heapM.length },
      current_method := none,
      warnings := st.warnings ++ [c1.text ++ " is a overloading, ignore it in this version."] }, ?_, ?_, ?_, ?_, ?_⟩
    · rw [runL_cons_ok _ _ (Notif.enterMethod ctx1 d1) _ h1,
        runL_cons_ok _ _ (Notif.exitMethod ectx) _ h2,
        runL_cons_ok _ _ (Notif.enterMethod ctx2 d2) _ h3]
      rfl
    · show (((st.heapC.set cid { st.heapC.getD cid default with methods := dset (st.heapC.getD cid default).methods c1.text st.heapM.length }).getD cid default).methods.filter (fun q => q.1 == c1.text)).length = 1
      rw [hgetd]
      exact filter_key_dset_none _ _ _ hfresh
    · show dget? ((st.heapC.set cid { st.heapC.getD cid default with methods := dset (st.heapC.getD cid default).methods c1.text st.heapM.length }).getD cid default).methods c1.text = some st.heapM.length
      rw [hgetd]
      exact dget?_dset_self _ _ _
    · exact getD_concat_length _ _
    · rfl

/-- Witness for C3 at a concrete state: `class A` already holds a method
`m`; a second `m` declaration only records a warning. -/
theorem claim_C3_witness :
    enterMethodDeclaration c3state methodNode2 7 = .ok { c3state with
      warnings := c3state.warnings ++ ["m is a overloading, ignore it in this version."] } :=
  claim_C3.1 c3state methodNode2 7 0 (Node.leaf "m") (by rfl) (by rfl) (by rfl)

/-! ### The classes-mapping invariant (C6) -/

theorem dset_map_fst_some {κ α : Type} [BEq κ] [LawfulBEq κ] (m : List (κ × α)) (k : κ)
    (v : α) (h : (dget? m k).isSome = true) :
    (dset m k v).map Prod.fst = m.map Prod.fst := by
  induction m with
  | nil => simp [dget?] at h
  | cons q rest ih =>
    unfold dget? at h
    unfold dset
    by_cases hb : (q.1 == k) = true
    · rw [if_pos hb]
      simp
      exact (eq_of_beq hb).symm
    · rw [if_neg hb]
      rw [if_neg hb] at h
      simp [ih h]

theorem mem_dset {κ α : Type} [BEq κ] (m : List (κ × α)) (k : κ) (v : α) (q : κ × α)
    (h : q ∈ dset m k v) : q = (k, v) ∨ q ∈ m := by
  induction m with
  | nil =>
    simp [dset] at h
    exact Or.inl h
  | cons p rest ih =>
    unfold dset at h
    by_cases hb : (p.1 == k) = true
    · rw [if_pos hb] at h
      rcases List.mem_cons.mp h with rfl | h2
      · exact Or.inl rfl
      · exact Or.inr (List.mem_cons_of_mem _ h2)
    · rw [if_neg hb] at h
      rcases List.mem_cons.mp h with rfl | h2
      · exact Or.inr (List.mem_cons_self _ _)
      · rcases ih h2 with h3 | h3
        · exact Or.inl h3
        · exact Or.inr (List.mem_cons_of_mem _ h3)

theorem dset_map_fst_nodup {κ α : Type} [BEq κ] [LawfulBEq κ] (m : List (κ × α)) (k : κ)
    (v : α) (h : (m.map Prod.fst).Nodup) : ((dset m k v).map Prod.fst).Nodup := by
  cases hk : dget? m k with
  | some w =>
    rw [dset_map_fst_some m k v (by rw [hk]; rfl)]
    exact h
  | none =>
    rw [dset_of_none m k v hk]
    have hnot : k ∉ m.map Prod.fst := by
      intro hmem
      obtain ⟨q, hq, hq1⟩ := List.mem_map.mp hmem
      have := dget?_none_forall m k hk q hq
      rw [hq1] at this
      simp at this
    simp [List.nodup_append, h, hnot]

/-- Lemma: `classesOK2` is stable under replacing a heap object by one with the
same name. -/
theorem classesOK2_set (cs : List (String × Nat)) (hc : List JavaClass) (i : Nat)
    (obj2 : JavaClass) (hn : obj2.name = (hc.getD i default).name)
    (h : classesOK2 cs hc) : classesOK2 cs (hc.set i obj2) := by
  refine ⟨h.1, ?_⟩
  intro q hq
  obtain ⟨h1, h2, h3⟩ := h.2 q hq
  refine ⟨h1, by simpa using h2, ?_⟩
  by_cases hi : i = q.2
  · subst hi
    rw [getD_set_self hc q.2 obj2 (by omega), hn]
    exact h3
  · rw [getD_set_ne hc i q.2 obj2 hi]
    exact h3

/-- Lemma: `classesOK2` is stable under allocating a fresh object under a fresh id
and binding a non-empty name to it. -/
theorem classesOK2_append (cs : List (String × Nat)) (hc : List JavaClass)
    (name : String) (cobj : JavaClass) (hname : name ≠ "") (hobj : cobj.name = name)
    (h : classesOK2 cs hc) :
    classesOK2 (dset cs name hc.length) (hc ++ [cobj]) := by
  refine ⟨dset_map_fst_nodup cs name hc.length h.1, ?_⟩
  intro q hq
  rcases mem_dset cs name hc.length q hq with rfl | hq2
  · refine ⟨hname, by simp, ?_⟩
    rw [getD_concat_length]
    exact hobj
  · obtain ⟨h1, h2, h3⟩ := h.2 q hq2
    refine ⟨h1, by simp; omega, ?_⟩
    rw [getD_append_left hc [cobj] q.2 h2]
    exact h3

/-- A decoded class header never carries an empty name. -/
theorem parse_class_block_name_ne (st : ListenerState) (ctx : Node) (name ext : String)
    (impl : Implements) (h : parse_class_block st ctx = .ok (name, ext, impl)) :
    name ≠ "" := by
  unfold parse_class_block at h
  cases hct : childText ctx 1 with
  | error e =>
    simp only [hct, Bind.bind, Except.bind] at h
    simp at h
  | ok t =>
    simp only [hct, Bind.bind, Except.bind] at h
    cases hcore : parse_class_block_core st ctx with
    | error e =>
      simp only [hcore] at h
      simp at h
    | ok res =>
      simp only [hcore] at h
      by_cases hb : (res.1 == "") = true
      · rw [if_pos hb] at h
        simp at h
      · rw [if_neg hb] at h
        have hres := Except.ok.inj h
        intro hcontra
        apply hb
        rw [hres, hcontra]
        rfl

/-- One listener step preserves the C6 invariant. -/
theorem step_classesOK (st st' : ListenerState) (n : Notif)
    (h : step st n = .ok st') (hok : classesOK st) : classesOK st' := by
  cases n with
  | enterPackage q =>
    unfold step enterPackageDeclaration at h
    injection h with h
    subst h
    exact hok
  | exitPackage =>
    unfold step at h
    injection h with h
    subst h
    exact hok
  | enterImport q =>
    unfold step enterImportDeclaration at h
    injection h with h
    subst h
    exact hok
  | exitClass ctx =>
    unfold step exitClassDeclaration childText at h
    cases hct : ctx.getChild 1 with
    | none =>
      simp only [hct, Bind.bind, Except.bind] at h
      simp at h
    | some c =>
      simp only [hct, Bind.bind, Except.bind] at h
      cases hdp : dpop st.deep_class st.deep with
      | none =>
        simp only [hdp] at h
        simp at h
      | some m =>
        simp only [hdp] at h
        injection h with h
        subst h
        exact hok
  | enterClass ctx =>
    unfold step enterClassDeclaration childText at h
    cases hct : ctx.getChild 1 with
    | none =>
      simp only [hct, Bind.bind, Except.bind] at h
      simp at h
    | some c =>
      simp only [hct, Bind.bind, Except.bind] at h
      cases hp : parse_class_block st ctx with
      | error e =>
        simp only [hp] at h
        simp at h
      | ok t =>
        obtain ⟨name, ext, impl⟩ := t
        simp only [hp] at h
        injection h with h
        subst h
        exact classesOK2_append st.classes st.heapC name
          ⟨name, ext, impl, [], [], []⟩
          (parse_class_block_name_ne st ctx name ext impl hp) rfl hok
  | enterField ctx gp =>
    unfold step enterFieldDeclaration childText at h
    cases hp : parse_class_block st gp with
    | error e =>
      simp only [hp, Bind.bind, Except.bind] at h
      simp at h
    | ok t =>
      obtain ⟨cname, cext, cimpl⟩ := t
      simp only [hp, Bind.bind, Except.bind] at h
      cases hdc : dget? st.deep_class st.deep with
      | none =>
        simp only [hdc] at h
        simp at h
      | some cid =>
        simp only [hdc] at h
        by_cases hne : (cname != (st.heapC.getD cid default).name) = true
        · rw [if_pos hne] at h
          simp at h
        · rw [if_neg hne] at h
          cases hcl : dget? st.classes (st.heapC.getD cid default).name with
          | none =>
            simp only [hcl] at h
            simp at h
          | some cid2 =>
            simp only [hcl] at h
            cases hc0 : ctx.getChild 0 with
            | none =>
              simp only [hc0] at h
              simp at h
            | some c0 =>
              simp only [hc0] at h
              cases hc1 : ctx.getChild 1 with
              | none =>
                simp only [hc1] at h
                simp at h
              | some c1 =>
                simp only [hc1] at h
                injection h with h
                subst h
                exact classesOK2_set st.classes st.heapC cid2 _ rfl hok
  | enterMethod ctx d =>
    unfold step enterMethodDeclaration childText at h
    cases hc1 : ctx.getChild 1 with
    | none =>
      simp only [hc1, Bind.bind, Except.bind] at h
      simp at h
    | some c1 =>
      simp only [hc1, Bind.bind, Except.bind] at h
      cases hdc : dget? st.deep_class st.deep with
      | none =>
        simp only [hdc] at h
        simp at h
      | some cid =>
        simp only [hdc] at h
        by_cases hdup : (dget? (st.heapC.getD cid default).methods c1.text).isSome = true
        · rw [if_pos hdup] at h
          injection h with h
          subst h
          exact hok
        · rw [if_neg hdup] at h
          cases hc0 : ctx.getChild 0 with
          | none =>
            simp only [hc0] at h
            simp at h
          | some c0 =>
            simp only [hc0] at h
            cases hc2 : ctx.getChild 2 with
            | none =>
              simp only [hc2] at h
              simp at h
            | some c2 =>
              simp only [hc2] at h
              cases hps : parse_method_params_block c2 with
              | error e =>
                simp only [hps] at h
                simp at h
              | ok ps =>
                simp only [hps] at h
                cases hcl : dget? st.classes (st.heapC.getD cid default).name with
                | none =>
                  simp only [hcl] at h
                  simp at h
                | some cid2 =>
                  simp only [hcl] at h
                  injection h with h
                  subst h
                  exact classesOK2_set st.classes st.heapC cid2 _ rfl hok
  | exitMethod ctx =>
    unfold step exitMethodDeclaration childText at h
    cases hc1 : ctx.getChild 1 with
    | none =>
      simp only [hc1, Bind.bind, Except.bind] at h
      simp at h
    | some c1 =>
      simp only [hc1, Bind.bind, Except.bind] at h
      injection h with h
      subst h
      exact hok
  | enterMethodCall ctx =>
    unfold step enterMethodCall childText at h
    cases hc0 : ctx.getChild 0 with
    | none =>
      simp only [hc0, Bind.bind, Except.bind] at h
      simp at h
    | some c0 =>
      simp only [hc0, Bind.bind, Except.bind] at h
      cases hcm : st.current_method with
      | some mid =>
        simp only [hcm] at h
        injection h with h
        subst h
        exact hok
      | none =>
        simp only [hcm] at h
        cases hdc : dget? st.deep_class st.deep with
        | none =>
          simp only [hdc] at h
          simp at h
        | some cid =>
          simp only [hdc] at h
          cases hcl : dget? st.classes (st.heapC.getD cid default).name with
          | none =>
            simp only [hcl] at h
            simp at h
          | some cid2 =>
            simp only [hcl] at h
            injection h with h
            subst h
            exact classesOK2_set st.classes st.heapC cid2 _ rfl hok

/-- A completed walk from an invariant-respecting state respects the
invariant. -/
theorem runL_classesOK (ns : List Notif) :
    ∀ (st : ListenerState), classesOK st →
      ∀ st', runL st ns = .ok st' → classesOK st' := by
  induction ns with
  | nil =>
    intro st hok st' h
    unfold runL at h
    rw [List.foldlM_nil] at h
    injection h with h
    subst h
    exact hok
  | cons n ns ih =>
    intro st hok st' h
    unfold runL at h
    rw [List.foldlM_cons] at h
    cases hstep : step st n with
    | error e =>
      rw [hstep] at h
      simp [Bind.bind, Except.bind] at h
    | ok st1 =>
      rw [hstep] at h
      exact ih st1 (step_classesOK st st1 n hstep hok) st' h

/-- Claim C6: (first conjunct) after every prefix of every notification stream
processed from the initial state, the classes mapping holds at most one
entry per name and every held ClassDecl has a non-empty name (the mapping's
invariant `classesOK`).  (Second conjunct) processing a class declaration
whose decoded name equals an existing key rebinds that key — in place, with
the key set unchanged — to the newly created (fresh, empty) ClassDecl,
replacing the prior entry. -/
theorem claim_C6 :
    ((classesOK initState
      ∧ ∀ (ns : List Notif) (st' : ListenerState),
          runL initState ns = .ok st' → classesOK st'))
    ∧ (∀ (st st' : ListenerState) (ctx : Node) (name ext : String) (impl : Implements)
        (oldcid : Nat),
        classesOK st →
        parse_class_block st ctx = .ok (name, ext, impl) →
        dget? st.classes name = some oldcid →
        enterClassDeclaration st ctx = .ok st' →
        dget? st'.classes name = some st.heapC.length
          ∧ st'.heapC.getD st.heapC.length default
              = ⟨name, ext, impl, [], [], []⟩
          ∧ st'.classes.map Prod.fst = st.classes.map Prod.fst
          ∧ oldcid ≠ st.heapC.length) := by
  constructor
  · constructor
    · exact (by decide : classesOK initState)
    · intro ns st' h
      exact runL_classesOK ns initState (by decide) st' h
  · intro st st' ctx name ext impl oldcid hok hp hold hrun
    rw [enterClass_ok st ctx name ext impl hp] at hrun
    have hst' := (Except.ok.inj hrun).symm
    subst hst'
    refine ⟨dget?_dset_self _ _ _, getD_concat_length _ _, ?_, ?_⟩
    · exact dset_map_fst_some st.classes name st.heapC.length (by rw [hold]; rfl)
    · have hmem := dget?_mem st.classes name oldcid hold
      have hlt := (hok.2 (name, oldcid) hmem).2.1
      omega

/-- Witness for C6: the invariant holds after a concrete stream that
redeclares `A`, and the redeclaration on top of the open `class A` rebinds
`classes["A"]` to the fresh object. -/
theorem claim_C6_witness :
    classesOK c6state
    ∧ (dget? c6state2.classes "A" = some stateAfterA.heapC.length
        ∧ c6state2.heapC.getD stateAfterA.heapC.length default
            = ⟨"A", "", .str "", [], [], []⟩
        ∧ c6state2.classes.map Prod.fst = stateAfterA.classes.map Prod.fst
        ∧ 0 ≠ stateAfterA.heapC.length) := by
  constructor
  · exact claim_C6.1.2 c6stream c6state (by rfl)
  · exact claim_C6.2 stateAfterA c6state2 c2node "A" "" (.str "") 0
      (by decide) (by rfl) (by rfl) (by rfl)

end CallGraph
